import Mathlib

/-!
Shallow embedding of the `forum` repository's two source modules:

* `post_formatter.py` — `format_post_body` (render a raw post body with the
  external markdown renderer in safe mode, then strip surrounding whitespace)
  and `quote_post` (build a quoted-reply body: attribution line with the
  HTML-escaped username and the post URL, followed by the body with `"> "`
  inserted at the start of every line by `re.compile(r'^', re.MULTILINE)`).

* `formatters/mdx_emoticons.py` — `EmoticonExtension` (a configuration store
  with keys `EMOTICONS`, `BASE_URL`, `FILE_EXTENSION`, updated from `(key,
  value)` pairs with Python dict-indexing semantics), `extendMarkdown` (builds
  one alternation pattern over the escaped emoticon symbols) and
  `EmoticonPattern.handleMatch` (turns a matched symbol into an `img` element).

Strings are modelled by Lean `String` / `List Char`; Python dicts by
insertion-ordered association lists; calls that can raise by `Except` /
`Option`.
-/

/-- Shallow embedding of the action of `re.compile(r'^', re.MULTILINE).sub(repl, s)`
after position 0: in multiline mode the `^` anchor produces an empty match at
position 0 and immediately after every `'\n'` character of the input — including
a `'\n'` that ends the string — and `sub` inserts `repl` at every such match.
This function inserts `repl` after each newline; the caller prepends the
insertion at position 0. -/
def sub_multiline_caret (repl : List Char) : List Char → List Char
  | [] => []
  | c :: rest =>
    if c = '\n' then c :: (repl ++ sub_multiline_caret repl rest)
    else c :: sub_multiline_caret repl rest

/-- `quote_post_re.sub('> ', body)` from `post_formatter.py`, where
`quote_post_re = re.compile(r'^', re.MULTILINE)`: `"> "` is inserted at every
start-of-line position of `body` (position 0 and after every newline). -/
def quote_post_re_sub (body : String) : String :=
  ⟨"> ".data ++ sub_multiline_caret "> ".data body.data⟩

/-- Modelled from the spec: `django.utils.html.escape` is an external library
call ("HTML escaping utilities — all treated as external library calls"); the
spec says the username is "HTML-escaped (entity-encoded)", with `<` and `>`
turned into `&lt;` and `&gt;`.  Django entity-encodes the five HTML-special
characters, replacing `&` first, which is equivalent to this per-character map. -/
def escapeChar (c : Char) : List Char :=
  if c = '&' then "&amp;".data
  else if c = '<' then "&lt;".data
  else if c = '>' then "&gt;".data
  else if c = '"' then "&quot;".data
  else if c = Char.ofNat 39 then "&#39;".data
  else [c]

/-- Entity-encode every character of a character list. -/
def escapeChars : List Char → List Char
  | [] => []
  | c :: rest => escapeChar c ++ escapeChars rest

/-- Modelled from the spec: the external `django.utils.html.escape`, lifted to
`String`. -/
def escape (s : String) : String :=
  ⟨escapeChars s.data⟩

/-- Python `str.strip()`: remove leading and trailing whitespace characters. -/
def pyStrip (s : List Char) : List Char :=
  ((s.dropWhile Char.isWhitespace).reverse.dropWhile Char.isWhitespace).reverse

/-- `format_post_body` from `post_formatter.py`:
`return markdown(body, safe_mode=True).strip()`.  The external markdown
renderer is abstracted as a function of the input text and the safe-mode flag;
the source invokes it with the flag set and strips the result. -/
def format_post_body (markdown_render : String → Bool → String) (body : String) : String :=
  ⟨pyStrip (markdown_render body true).data⟩

/-- The user object attached to a post (external entity: only its username is
consumed). -/
structure User where
  username : String
deriving DecidableEq

/-- A post-like object as consumed by `quote_post`: a user, the value returned
by `get_absolute_url()`, and a raw body. -/
structure Post where
  user : User
  url : String
  body : String
deriving DecidableEq

/-- `post.get_absolute_url()`: the post's resolvable absolute URL (external
accessor, modelled as a stored field). -/
def Post.get_absolute_url (p : Post) : String := p.url

/-- `quote_post` from `post_formatter.py`:
`u'**%s** [wrote](%s "View quoted post"):\n\n%s\n\n' %
 (escape(post.user.username), post.get_absolute_url(),
  quote_post_re.sub('> ', post.body))`. -/
def quote_post (p : Post) : String :=
  "**" ++ escape p.user.username ++ "** [wrote](" ++ p.get_absolute_url ++
    " \"View quoted post\"):\n\n" ++ quote_post_re_sub p.body ++ "\n\n"

/-- Split a character list at newline characters; the result always has one
more segment than the input has newlines (so a trailing newline yields a
trailing empty segment, and the empty input yields one empty segment). -/
def splitNl : List Char → List (List Char)
  | [] => [[]]
  | c :: rest =>
    if c = '\n' then [] :: splitNl rest
    else
      match splitNl rest with
      | [] => [[c]]
      | l :: ls => (c :: l) :: ls

/-- Join segments back with newline characters; inverse of `splitNl`. -/
def joinNl : List (List Char) → List Char
  | [] => []
  | [l] => l
  | l :: l2 :: ls => l ++ '\n' :: joinNl (l2 :: ls)

/-- A Python value stored in the extension's configuration dict: a string (for
`BASE_URL` / `FILE_EXTENSION`) or an emoticon table (for `EMOTICONS`). -/
inductive PyVal where
  | str (s : String)
  | table (t : List (String × String))
deriving DecidableEq

/-- One cell of `self.config`: the Python list `[value, doc]`. -/
structure ConfigEntry where
  val : PyVal
  doc : String
deriving DecidableEq

/-- `self.config`: a Python dict from option name to `[value, doc]`, modelled
as an insertion-ordered association list. -/
abbrev ConfigStore := List (String × ConfigEntry)

/-- The default emoticon table of `EmoticonExtension.__init__`, in source
(insertion) order. -/
def default_emoticons : List (String × String) :=
  [(":angry:", "angry"), (":blink:", "blink"), (":D", "grin"),
   (":huh:", "huh"), (":lol:", "lol"), (":o", "ohmy"),
   (":ph34r:", "ph34r"), (":rolleyes:", "rolleyes"), (":(", "sad"),
   (":)", "smile"), (":p", "tongue"), (":unsure:", "unsure"),
   (":wacko:", "wacko"), (";)", "wink"), (":wub:", "wub")]

/-- The `self.config` dict as initialized by `EmoticonExtension.__init__`,
before the configuration pairs are applied. -/
def default_config : ConfigStore :=
  [("EMOTICONS", ⟨.table default_emoticons,
      "A mapping from emoticon symbols to image names."⟩),
   ("BASE_URL", ⟨.str "",
      "The base URL at which emoticons are accessible."⟩),
   ("FILE_EXTENSION", ⟨.str "gif",
      "The file extension to be used for emoticon images."⟩)]

/-- `self.config[key][0] = value`: Python dict indexing raises `KeyError` when
`key` is not a key of the dict; otherwise index 0 of the stored `[value, doc]`
list is overwritten and every other entry is left untouched. -/
def storeSet (store : ConfigStore) (key : String) (v : PyVal) :
    Except String ConfigStore :=
  match store with
  | [] => .error ("KeyError: " ++ key)
  | (k, e) :: rest =>
    if k = key then .ok ((k, ⟨v, e.doc⟩) :: rest)
    else (storeSet rest key v).map (fun r => (k, e) :: r)

/-- The `for key, value in configs` loop of `EmoticonExtension.__init__`:
apply `self.config[key][0] = value` for each pair in order, propagating
`KeyError`. -/
def applyConfigs (store : ConfigStore) :
    List (String × PyVal) → Except String ConfigStore
  | [] => .ok store
  | (key, v) :: rest =>
    match storeSet store key v with
    | .ok st2 => applyConfigs st2 rest
    | .error e => .error e

/-- `EmoticonExtension.__init__(configs)`: start from the default config dict
and apply the supplied configuration pairs. -/
def extension_init (configs : List (String × PyVal)) : Except String ConfigStore :=
  applyConfigs default_config configs

/-- `self.getConfig(key)`: the value slot of the stored `[value, doc]` pair. -/
def getConfig (store : ConfigStore) (key : String) : Option PyVal :=
  (List.lookup key store).map ConfigEntry.val

/-- The `EMOTICONS` table currently configured, `getConfig('EMOTICONS')`. -/
def getEmoticons (store : ConfigStore) : List (String × String) :=
  match getConfig store "EMOTICONS" with
  | some (.table t) => t
  | _ => []

/-- The `BASE_URL` currently configured, `getConfig('BASE_URL')`. -/
def getBaseUrl (store : ConfigStore) : String :=
  match getConfig store "BASE_URL" with
  | some (.str s) => s
  | _ => ""

/-- The `FILE_EXTENSION` currently configured, `getConfig('FILE_EXTENSION')`. -/
def getFileExtension (store : ConfigStore) : String :=
  match getConfig store "FILE_EXTENSION" with
  | some (.str s) => s
  | _ => ""

/-- `re.escape` on one character: every character other than letters, digits
and underscore is preceded by a backslash, so the escaped text matches the
character literally in pattern syntax. -/
def reEscapeChar (c : Char) : List Char :=
  if c.isAlphanum || c = '_' then [c] else ['\\', c]

/-- `re.escape(symbol)`: the symbol escaped for literal matching. -/
def re_escape (s : String) : String :=
  ⟨(s.data.map reEscapeChar).flatten⟩

/-- The pattern text built once by `EmoticonExtension.extendMarkdown`:
`'(?P<emoticon>%s)' % '|'.join([re.escape(e) for e in EMOTICONS.keys()])`,
a single alternation over all configured symbols in table order. -/
def emoticon_re (store : ConfigStore) : String :=
  "(?P<emoticon>" ++
    String.intercalate "|" ((getEmoticons store).map (fun kv => re_escape kv.1)) ++
    ")"

/-- Matching an alternation of `re.escape`d literal symbols at one position of
the input: the regex engine tries the alternatives left to right, and an
escaped literal matches exactly when the symbol is a prefix of the remaining
input, so the first such alternative wins. -/
def matchAlternation (alts : List String) (s : List Char) : Option String :=
  alts.find? (fun a => a.data.isPrefixOf s)

/-- The `img` element built by `EmoticonPattern.handleMatch`: its `src` and
`alt` attributes. -/
structure ImgElement where
  src : String
  alt : String
deriving DecidableEq

/-- `EmoticonPattern.handleMatch`: look the matched symbol up in the
configured `EMOTICONS` table (Python dict indexing; `none` models the
`KeyError` path, unreachable for symbols the pattern matched) and build an
`img` element with `src = BASE_URL + image_name + '.' + FILE_EXTENSION` and
`alt` the matched symbol itself. -/
def handleMatch (store : ConfigStore) (emoticon : String) : Option ImgElement :=
  (List.lookup emoticon (getEmoticons store)).map (fun name =>
    { src := getBaseUrl store ++ name ++ "." ++ getFileExtension store,
      alt := emoticon })

theorem splitNl_ne_nil (s : List Char) : splitNl s ≠ [] := by
  cases s with
  | nil => simp [splitNl]
  | cons c rest =>
    simp only [splitNl]
    split
    · simp
    · split <;> simp_all

theorem joinNl_cons (l : List Char) (ls : List (List Char)) (h : ls ≠ []) :
    joinNl (l :: ls) = l ++ '\n' :: joinNl ls := by
  cases ls with
  | nil => exact absurd rfl h
  | cons a as => rfl

theorem sub_eq_joinNl (repl : List Char) (s : List Char) :
    repl ++ sub_multiline_caret repl s =
      joinNl ((splitNl s).map (fun l => repl ++ l)) := by
  induction s with
  | nil => simp [sub_multiline_caret, splitNl, joinNl]
  | cons c rest ih =>
    by_cases hc : c = '\n'
    · subst hc
      rw [show splitNl ('\n' :: rest) = [] :: splitNl rest by simp [splitNl]]
      rw [List.map_cons]
      rw [joinNl_cons _ _ (by simp [splitNl_ne_nil rest])]
      rw [show sub_multiline_caret repl ('\n' :: rest) =
            '\n' :: (repl ++ sub_multiline_caret repl rest) by
          simp [sub_multiline_caret]]
      rw [← ih]
      simp
    · rw [show sub_multiline_caret repl (c :: rest) =
            c :: sub_multiline_caret repl rest by
          simp [sub_multiline_caret, hc]]
      cases hsp : splitNl rest with
      | nil => exact absurd hsp (splitNl_ne_nil rest)
      | cons l ls =>
        rw [show splitNl (c :: rest) = (c :: l) :: ls by
            simp [splitNl, hc, hsp]]
        rw [hsp] at ih
        cases ls with
        | nil =>
          simp only [List.map_cons, List.map_nil, joinNl] at ih ⊢
          have h := List.append_cancel_left ih
          rw [h]
        | cons l2 ls2 =>
          rw [List.map_cons, joinNl_cons _ _ (by simp)]
          rw [List.map_cons, joinNl_cons _ _ (by simp)] at ih
          have h : sub_multiline_caret repl rest =
              l ++ '\n' :: joinNl ((l2 :: ls2).map (fun x => repl ++ x)) := by
            apply @List.append_cancel_left _ repl
            rw [ih]
            simp
          rw [h]
          simp

theorem sub_append_newline (repl : List Char) (s : List Char) :
    sub_multiline_caret repl (s ++ ['\n']) =
      sub_multiline_caret repl s ++ '\n' :: repl := by
  induction s with
  | nil => simp [sub_multiline_caret]
  | cons c rest ih =>
    by_cases hc : c = '\n' <;>
      simp [sub_multiline_caret, hc, ih]

theorem string_data_append (s t : String) : (s ++ t).data = s.data ++ t.data := by
  cases s; cases t; rfl

/-- C2: for every post, `quote_post` returns exactly the attribution line
`**<escaped username>** [wrote](<post URL> "View quoted post"):` followed by a
blank line, the quoted body, and a trailing blank line; in particular for body
`"hello"`, user `"bob"` and URL `"/posts/1"` the result is
`'**bob** [wrote](/posts/1 "View quoted post"):\n\n> hello\n\n'`. -/
theorem quote_post_format :
    (∀ p : Post, quote_post p =
      "**" ++ escape p.user.username ++ "** [wrote](" ++ p.get_absolute_url ++
        " \"View quoted post\"):\n\n" ++ quote_post_re_sub p.body ++ "\n\n") ∧
    quote_post ⟨⟨"bob"⟩, "/posts/1", "hello"⟩ =
      "**bob** [wrote](/posts/1 \"View quoted post\"):\n\n> hello\n\n" :=
  ⟨fun _ => rfl, by decide⟩

/-- C3: the quoted body produced by `quote_post_re.sub('> ', body)` is the
original body with `"> "` inserted at the start of every line — splitting the
body at newlines, prefixing every segment with `"> "`, and rejoining with the
original newlines reproduces it, so all line content and line breaks are
preserved; in particular `"a\nb"` yields `"> a\n> b"`. -/
theorem quote_post_re_sub_lines :
    (∀ b : String, quote_post_re_sub b =
      ⟨joinNl ((splitNl b.data).map (fun l => "> ".data ++ l))⟩) ∧
    quote_post_re_sub "a\nb" = "> a\n> b" := by
  constructor
  · intro b
    exact congrArg String.mk (sub_eq_joinNl "> ".data b.data)
  · decide

/-- C9: the multiline start-of-line anchor also matches the empty position
after a final newline, so a body ending in `'\n'` gains a trailing `"> "` in
its quoted form: for every body `b`, quoting `b ++ "\n"` appends `"\n> "` to
the quoted form of `b`; in particular `"a\n"` yields `"> a\n> "` and the empty
body yields `"> "`. -/
theorem quote_post_re_sub_trailing_newline :
    (∀ b : String, quote_post_re_sub (b ++ "\n") = quote_post_re_sub b ++ "\n> ") ∧
    quote_post_re_sub "a\n" = "> a\n> " ∧
    quote_post_re_sub "" = "> " := by
  refine ⟨fun b => ?_, by decide, by decide⟩
  show String.mk _ = _
  rw [show (quote_post_re_sub b ++ "\n> ") =
      String.mk (("> ".data ++ sub_multiline_caret "> ".data b.data) ++ "\n> ".data)
    from rfl]
  apply congrArg String.mk
  rw [string_data_append]
  rw [show ("\n".data : List Char) = ['\n'] from rfl]
  rw [sub_append_newline]
  simp

theorem escapeChar_no_angle (c : Char) :
    (escapeChar c).all (fun x => !(x == '<') && !(x == '>')) = true := by
  unfold escapeChar
  split_ifs with h1 h2 h3 h4 h5
  · decide
  · decide
  · decide
  · decide
  · decide
  · simp [List.all_cons, h2, h3]

theorem escapeChars_no_angle (l : List Char) :
    (escapeChars l).all (fun x => !(x == '<') && !(x == '>')) = true := by
  induction l with
  | nil => rfl
  | cons c rest ih =>
    rw [show escapeChars (c :: rest) = escapeChar c ++ escapeChars rest from rfl]
    rw [List.all_append, escapeChar_no_angle, ih]
    rfl

/-- C4: the username interpolated into the attribution line is entity-encoded
before interpolation: the escaped username never contains a raw `<` or `>`
character, and in particular the username `"<script>"` appears as
`"&lt;script&gt;"` in `quote_post`'s output. -/
theorem quote_post_escapes_username :
    (∀ s : String,
      (escape s).data.all (fun x => !(x == '<') && !(x == '>')) = true) ∧
    quote_post ⟨⟨"<script>"⟩, "/p", "x"⟩ =
      "**&lt;script&gt;** [wrote](/p \"View quoted post\"):\n\n> x\n\n" :=
  ⟨fun s => escapeChars_no_angle s.data, by decide⟩

theorem dropWhile_head_not {α : Type} (p : α → Bool) (l : List α) (c : α)
    (rest : List α) (h : l.dropWhile p = c :: rest) : p c = false := by
  induction l with
  | nil => simp [List.dropWhile] at h
  | cons a as ih =>
    rw [List.dropWhile_cons] at h
    split at h
    · exact ih h
    · next hpa =>
      cases h
      simpa using hpa

theorem reverse_trim_head {α : Type} (p : α → Bool) (l : List α)
    (hl : ∀ c rest, l = c :: rest → p c = false) (c : α) (rest : List α)
    (h : (l.reverse.dropWhile p).reverse = c :: rest) : p c = false := by
  have hl2 : l = (l.reverse.dropWhile p).reverse ++ (l.reverse.takeWhile p).reverse := by
    conv_lhs => rw [← l.reverse_reverse, ← List.takeWhile_append_dropWhile (p := p) (l := l.reverse)]
    rw [List.reverse_append]
  rw [h] at hl2
  exact hl _ _ (by simpa using hl2)

theorem pyStrip_head (s : List Char) (c : Char) (rest : List Char)
    (h : pyStrip s = c :: rest) : c.isWhitespace = false := by
  unfold pyStrip at h
  exact reverse_trim_head _ _ (fun c' rest' h' => dropWhile_head_not _ s c' rest' h') c rest h

theorem pyStrip_last (s : List Char) (c : Char) (rest : List Char)
    (h : (pyStrip s).reverse = c :: rest) : c.isWhitespace = false := by
  unfold pyStrip at h
  rw [List.reverse_reverse] at h
  exact dropWhile_head_not _ _ _ _ h

theorem pyStrip_isInfix (s : List Char) : pyStrip s <:+: s := by
  refine ⟨s.takeWhile Char.isWhitespace,
    ((s.dropWhile Char.isWhitespace).reverse.takeWhile Char.isWhitespace).reverse, ?_⟩
  have h1 : s.dropWhile Char.isWhitespace =
      pyStrip s ++
        ((s.dropWhile Char.isWhitespace).reverse.takeWhile Char.isWhitespace).reverse := by
    unfold pyStrip
    conv_lhs =>
      rw [← (s.dropWhile Char.isWhitespace).reverse_reverse,
        ← List.takeWhile_append_dropWhile (p := Char.isWhitespace)
          (l := (s.dropWhile Char.isWhitespace).reverse)]
    rw [List.reverse_append]
  rw [List.append_assoc, ← h1, List.takeWhile_append_dropWhile]

/-- C7: `format_post_body` invokes the external renderer with the safe-mode
flag set and returns the rendered result stripped of surrounding whitespace:
the output equals the strip of the safe-mode render, its first and last
characters (when present) are not whitespace, and every contiguous substring
of the output is a contiguous substring of the safe-mode render — so raw
markup the safe renderer suppressed (e.g. a `<script>` tag) cannot reappear. -/
theorem format_post_body_safe_trimmed :
    (∀ (markdown_render : String → Bool → String) (body : String),
      format_post_body markdown_render body =
        ⟨pyStrip (markdown_render body true).data⟩) ∧
    (∀ (markdown_render : String → Bool → String) (body : String)
        (c : Char) (rest : List Char),
      (format_post_body markdown_render body).data = c :: rest →
        c.isWhitespace = false) ∧
    (∀ (markdown_render : String → Bool → String) (body : String)
        (c : Char) (rest : List Char),
      (format_post_body markdown_render body).data.reverse = c :: rest →
        c.isWhitespace = false) ∧
    (∀ (markdown_render : String → Bool → String) (body : String)
        (pat : List Char),
      pat <:+: (format_post_body markdown_render body).data →
        pat <:+: (markdown_render body true).data) :=
  ⟨fun _ _ => rfl,
   fun r b c rest h => pyStrip_head (r b true).data c rest h,
   fun r b c rest h => pyStrip_last (r b true).data c rest h,
   fun r b _ h => h.trans (pyStrip_isInfix (r b true).data)⟩

theorem format_post_body_safe_trimmed_witness :
    ("ok".data <:+: (format_post_body (fun _ _ => " ok ") "x").data) ∧
    ("ok".data <:+: ((fun (_ : String) (_ : Bool) => " ok ") "x" true).data) ∧
    'o'.isWhitespace = false :=
  have hin : "ok".data <:+: (format_post_body (fun _ _ => " ok ") "x").data :=
    ⟨[], [], by decide⟩
  ⟨hin,
   format_post_body_safe_trimmed.2.2.2 (fun _ _ => " ok ") "x" "ok".data hin,
   format_post_body_safe_trimmed.2.1 (fun _ _ => " ok ") "x" 'o' ['k'] (by decide)⟩

/-- C1: for every configuration and every symbol `S` configured in the
emoticon table (so the pattern can match `S`), `handleMatch` returns an image
element whose `src` is the plain concatenation
`BASE_URL ++ ImageName(S) ++ "." ++ FILE_EXTENSION` — no URL-encoding — and
whose `alt` is exactly the matched symbol `S` as written in the input. -/
theorem handleMatch_src_alt (store : ConfigStore) (S name : String)
    (h : List.lookup S (getEmoticons store) = some name) :
    handleMatch store S =
      some { src := getBaseUrl store ++ name ++ "." ++ getFileExtension store,
             alt := S } := by
  simp [handleMatch, h]

theorem handleMatch_src_alt_witness :
    List.lookup ":)" (getEmoticons default_config) = some "smile" ∧
    handleMatch default_config ":)" =
      some { src := getBaseUrl default_config ++ "smile" ++ "." ++
               getFileExtension default_config,
             alt := ":)" } ∧
    getBaseUrl default_config ++ "smile" ++ "." ++ getFileExtension default_config
      = "smile.gif" :=
  ⟨by decide, handleMatch_src_alt default_config ":)" "smile" (by decide), by decide⟩

/-- C8: two configurations sharing the same emoticon table produce, for the
same matched symbol, image elements that can differ only in `src`: whether a
match produces an element and the element's `alt` attribute are unchanged, and
the `alt` equals the matched symbol, independent of `BASE_URL` and
`FILE_EXTENSION`. -/
theorem base_url_file_extension_only_affect_src
    (s1 s2 : ConfigStore) (e : String)
    (h : getEmoticons s1 = getEmoticons s2) :
    (handleMatch s1 e).map ImgElement.alt = (handleMatch s2 e).map ImgElement.alt ∧
    (∀ el, handleMatch s1 e = some el → el.alt = e) := by
  constructor
  · cases hl : List.lookup e (getEmoticons s2) with
    | none => simp [handleMatch, h, hl]
    | some name => simp [handleMatch, h, hl]
  · intro el hel
    simp only [handleMatch, Option.map_eq_some'] at hel
    obtain ⟨name, _, hel2⟩ := hel
    rw [← hel2]

theorem base_url_file_extension_only_affect_src_witness :
    getEmoticons default_config =
      getEmoticons
        [("EMOTICONS", ⟨.table default_emoticons,
            "A mapping from emoticon symbols to image names."⟩),
         ("BASE_URL", ⟨.str "/emoticons/",
            "The base URL at which emoticons are accessible."⟩),
         ("FILE_EXTENSION", ⟨.str "png",
            "The file extension to be used for emoticon images."⟩)] ∧
    (handleMatch default_config ":D").map ImgElement.alt =
      (handleMatch
        [("EMOTICONS", ⟨.table default_emoticons,
            "A mapping from emoticon symbols to image names."⟩),
         ("BASE_URL", ⟨.str "/emoticons/",
            "The base URL at which emoticons are accessible."⟩),
         ("FILE_EXTENSION", ⟨.str "png",
            "The file extension to be used for emoticon images."⟩)] ":D").map
        ImgElement.alt :=
  ⟨by decide,
   (base_url_file_extension_only_affect_src default_config
      [("EMOTICONS", ⟨.table default_emoticons,
          "A mapping from emoticon symbols to image names."⟩),
       ("BASE_URL", ⟨.str "/emoticons/",
          "The base URL at which emoticons are accessible."⟩),
       ("FILE_EXTENSION", ⟨.str "png",
          "The file extension to be used for emoticon images."⟩)] ":D"
      (by decide)).1⟩

/-- C5: the extension builds one alternation pattern over all configured
symbols, each `re.escape`d for literal matching, in table (insertion) order;
at any input position, matching resolves to the first alternative in that
order whose symbol occurs there, so overlapping or prefix-colliding symbols
resolve to whichever appears first in the alternation. -/
theorem emoticon_alternation_first_match :
    (∀ store : ConfigStore, emoticon_re store =
      "(?P<emoticon>" ++
        String.intercalate "|"
          ((getEmoticons store).map (fun kv => re_escape kv.1)) ++ ")") ∧
    (∀ (pre post : List String) (k : String) (s : List Char),
      (∀ k2 ∈ pre, k2.data.isPrefixOf s = false) →
      k.data.isPrefixOf s = true →
      matchAlternation (pre ++ k :: post) s = some k) := by
  refine ⟨fun _ => rfl, fun pre post k s hpre hk => ?_⟩
  induction pre with
  | nil =>
    rw [List.nil_append]
    exact List.find?_cons_of_pos _ hk
  | cons a pre ih =>
    have ha : a.data.isPrefixOf s = false := hpre a (by simp)
    rw [List.cons_append]
    rw [show matchAlternation (a :: (pre ++ k :: post)) s =
          matchAlternation (pre ++ k :: post) s from
        List.find?_cons_of_neg _ (by simp [ha])]
    exact ih (fun k2 hk2 => hpre k2 (by simp [hk2]))

theorem emoticon_alternation_first_match_witness :
    default_emoticons.map Prod.fst =
      [":angry:", ":blink:", ":D", ":huh:", ":lol:", ":o"] ++ ":ph34r:" ::
        [":rolleyes:", ":(", ":)", ":p", ":unsure:", ":wacko:", ";)", ":wub:"] ∧
    (∀ k2 ∈ [":angry:", ":blink:", ":D", ":huh:", ":lol:", ":o"],
      k2.data.isPrefixOf ":ph34r: hi".data = false) ∧
    ":ph34r:".data.isPrefixOf ":ph34r: hi".data = true ∧
    ":p".data.isPrefixOf ":ph34r: hi".data = true ∧
    matchAlternation
      ([":angry:", ":blink:", ":D", ":huh:", ":lol:", ":o"] ++ ":ph34r:" ::
        [":rolleyes:", ":(", ":)", ":p", ":unsure:", ":wacko:", ";)", ":wub:"])
      ":ph34r: hi".data = some ":ph34r:" :=
  ⟨by decide, by decide, by decide, by decide,
   emoticon_alternation_first_match.2
     [":angry:", ":blink:", ":D", ":huh:", ":lol:", ":o"]
     [":rolleyes:", ":(", ":)", ":p", ":unsure:", ":wacko:", ";)", ":wub:"]
     ":ph34r:" ":ph34r: hi".data (by decide) (by decide)⟩

/-- C6: supplying an `EMOTICONS` configuration pair replaces the entire
default table: the resulting configuration's table is exactly the custom
mapping, `handleMatch` resolves image names only through the custom mapping's
keys (a symbol absent from it yields no element), and the alternation built
from the custom table can only ever match one of the custom mapping's keys, so
default symbols omitted from the custom mapping no longer match in input text. -/
theorem custom_emoticons_replace_defaults
    (custom : List (String × String)) (st : ConfigStore)
    (hinit : extension_init [("EMOTICONS", PyVal.table custom)] = .ok st) :
    getEmoticons st = custom ∧
    (∀ s : String, List.lookup s custom = none → handleMatch st s = none) ∧
    (∀ (s : String) (inp : List Char),
      matchAlternation (custom.map Prod.fst) inp = some s →
        s ∈ custom.map Prod.fst) := by
  have hcomp : extension_init [("EMOTICONS", PyVal.table custom)] =
      .ok [("EMOTICONS", ⟨PyVal.table custom,
              "A mapping from emoticon symbols to image names."⟩),
           ("BASE_URL", ⟨PyVal.str "",
              "The base URL at which emoticons are accessible."⟩),
           ("FILE_EXTENSION", ⟨PyVal.str "gif",
              "The file extension to be used for emoticon images."⟩)] := rfl
  rw [hcomp] at hinit
  injection hinit with hst
  subst hst
  refine ⟨rfl, fun s hs => ?_, fun s inp h => List.mem_of_find?_eq_some h⟩
  simp only [handleMatch]
  rw [show getEmoticons
        [("EMOTICONS", ⟨PyVal.table custom,
            "A mapping from emoticon symbols to image names."⟩),
         ("BASE_URL", ⟨PyVal.str "",
            "The base URL at which emoticons are accessible."⟩),
         ("FILE_EXTENSION", ⟨PyVal.str "gif",
            "The file extension to be used for emoticon images."⟩)] = custom
      from rfl]
  rw [hs]
  rfl

theorem custom_emoticons_replace_defaults_witness :
    extension_init [("EMOTICONS", PyVal.table [(":p", "cheeky")])] =
      .ok [("EMOTICONS", ⟨PyVal.table [(":p", "cheeky")],
              "A mapping from emoticon symbols to image names."⟩),
           ("BASE_URL", ⟨PyVal.str "",
              "The base URL at which emoticons are accessible."⟩),
           ("FILE_EXTENSION", ⟨PyVal.str "gif",
              "The file extension to be used for emoticon images."⟩)] ∧
    List.lookup ":D" [(":p", "cheeky")] = none ∧
    handleMatch
      [("EMOTICONS", ⟨PyVal.table [(":p", "cheeky")],
          "A mapping from emoticon symbols to image names."⟩),
       ("BASE_URL", ⟨PyVal.str "",
          "The base URL at which emoticons are accessible."⟩),
       ("FILE_EXTENSION", ⟨PyVal.str "gif",
          "The file extension to be used for emoticon images."⟩)] ":D" = none :=
  ⟨rfl, by decide,
   (custom_emoticons_replace_defaults [(":p", "cheeky")] _ rfl).2.1 ":D" (by decide)⟩

/-- C10: constructing the extension with a configuration pair whose option
name is not `EMOTICONS`, `BASE_URL` or `FILE_EXTENSION` raises `KeyError`
rather than ignoring the pair; with a recognized option name, exactly that
option's value is overwritten and the two other options keep their defaults. -/
theorem extension_init_unknown_key_error :
    (∀ (key : String) (v : PyVal),
      key ≠ "EMOTICONS" → key ≠ "BASE_URL" → key ≠ "FILE_EXTENSION" →
      extension_init [(key, v)] = .error ("KeyError: " ++ key)) ∧
    (∀ t st, extension_init [("EMOTICONS", PyVal.table t)] = .ok st →
      getEmoticons st = t ∧ getBaseUrl st = "" ∧ getFileExtension st = "gif") ∧
    (∀ u st, extension_init [("BASE_URL", PyVal.str u)] = .ok st →
      getEmoticons st = default_emoticons ∧ getBaseUrl st = u ∧
        getFileExtension st = "gif") ∧
    (∀ x st, extension_init [("FILE_EXTENSION", PyVal.str x)] = .ok st →
      getEmoticons st = default_emoticons ∧ getBaseUrl st = "" ∧
        getFileExtension st = x) := by
  refine ⟨fun key v h1 h2 h3 => ?_, fun t st h => ?_, fun u st h => ?_,
    fun x st h => ?_⟩
  · simp [extension_init, applyConfigs, storeSet, default_config,
      Ne.symm h1, Ne.symm h2, Ne.symm h3, Except.map]
  · rw [show extension_init [("EMOTICONS", PyVal.table t)] =
        .ok [("EMOTICONS", ⟨PyVal.table t,
                "A mapping from emoticon symbols to image names."⟩),
             ("BASE_URL", ⟨PyVal.str "",
                "The base URL at which emoticons are accessible."⟩),
             ("FILE_EXTENSION", ⟨PyVal.str "gif",
                "The file extension to be used for emoticon images."⟩)]
      from rfl] at h
    injection h with hst
    subst hst
    exact ⟨rfl, rfl, rfl⟩
  · rw [show extension_init [("BASE_URL", PyVal.str u)] =
        .ok [("EMOTICONS", ⟨PyVal.table default_emoticons,
                "A mapping from emoticon symbols to image names."⟩),
             ("BASE_URL", ⟨PyVal.str u,
                "The base URL at which emoticons are accessible."⟩),
             ("FILE_EXTENSION", ⟨PyVal.str "gif",
                "The file extension to be used for emoticon images."⟩)]
      from rfl] at h
    injection h with hst
    subst hst
    exact ⟨rfl, rfl, rfl⟩
  · rw [show extension_init [("FILE_EXTENSION", PyVal.str x)] =
        .ok [("EMOTICONS", ⟨PyVal.table default_emoticons,
                "A mapping from emoticon symbols to image names."⟩),
             ("BASE_URL", ⟨PyVal.str "",
                "The base URL at which emoticons are accessible."⟩),
             ("FILE_EXTENSION", ⟨PyVal.str x,
                "The file extension to be used for emoticon images."⟩)]
      from rfl] at h
    injection h with hst
    subst hst
    exact ⟨rfl, rfl, rfl⟩

theorem extension_init_unknown_key_error_witness :
    ("COLOR" ≠ "EMOTICONS" ∧ "COLOR" ≠ "BASE_URL" ∧
      "COLOR" ≠ "FILE_EXTENSION") ∧
    extension_init [("COLOR", PyVal.str "red")] =
      .error ("KeyError: " ++ "COLOR") :=
  ⟨⟨by decide, by decide, by decide⟩,
   extension_init_unknown_key_error.1 "COLOR" (PyVal.str "red")
     (by decide) (by decide) (by decide)⟩
